import Mathlib

/-!
Verification of the VM-based Luau obfuscator (`src/obfuscator.js`).

The pipeline is shallowly embedded: JS numbers that only ever hold byte or
index values are `Nat`; JS strings are `String` (token layer) or `List Char`
(artifact layer, where byte lengths matter and the artifact is ASCII);
randomness (`Math.random`, `crypto.randomBytes`) is passed in explicitly as
streams, and the per-build opcode shuffle as its outcome list; Lua tables with
possibly-nil entries are `Nat → Option Nat`; a Lua runtime error is `none`.
-/

namespace Obf

/-- `function toBytes(s) { const a = []; for ... a.push(s.charCodeAt(i) & 0xFF); return a; }`
(obfuscator.js:25). -/
def toBytes (s : String) : List Nat := s.data.map (fun c => c.toNat &&& 0xFF)

/-- `function rotl8(v, n) { return ((v << n) | (v >>> (8 - n))) & 0xFF; }` (obfuscator.js:27). -/
def rotl8 (v n : Nat) : Nat := ((v <<< n) ||| (v >>> (8 - n))) &&& 0xFF

/-- `function rotr8(v, n) { return ((v >>> n) | (v << (8 - n))) & 0xFF; }` (obfuscator.js:28). -/
def rotr8 (v n : Nat) : Nat := ((v >>> n) ||| (v <<< (8 - n))) &&& 0xFF

set_option maxRecDepth 40000

/-- C8: the two 8-bit rotation helpers are mutually inverse on bytes for
rotation amounts 1..7 (the amounts `encryptConstantString` draws), and both
keep their result in [0,255]. -/
theorem c8_rot8_inverse :
    ∀ v < 256, ∀ n, 1 ≤ n → n ≤ 7 →
      rotr8 (rotl8 v n) n = v ∧ rotl8 v n < 256 ∧ rotr8 v n < 256 := by
  decide

/-- Witness for `c8_rot8_inverse` at v = 203, n = 3. -/
theorem c8_rot8_inverse_witness :
    rotr8 (rotl8 203 3) 3 = 203 ∧ rotl8 203 3 < 256 ∧ rotr8 203 3 < 256 :=
  c8_rot8_inverse 203 (by decide) 3 (by decide) (by decide)

/-! ## Per-constant encryption (obfuscator.js:285-312)

`Math.random`-driven draws are passed in as a stream `r : Nat → Nat` of raw
values together with a cursor `k`; `randint(a,b)` maps a raw draw into
`[a,b]`. `crypto.randomBytes(4).readUInt32LE(0) >>> 0` is a raw draw reduced
mod 2^32. -/

/-- `function randint(a, b) { return Math.floor(Math.random() * (b - a + 1)) + a; }`
(obfuscator.js:17), with the raw draw `x` standing for `Math.random()`'s
effect: a value in `[a, b]`. -/
def randint (a b x : Nat) : Nat := a + x % (b - a + 1)

/-- The per-chunk PRNG `function nxt() { pr = (1103515245 * pr + 12345) >>> 0; return pr; }`
(obfuscator.js:302). -/
def lcg (pr : Nat) : Nat := (1103515245 * pr + 12345) % 4294967296

/-- `const tmp = arr[j]; arr[j] = arr[r]; arr[r] = tmp;` (obfuscator.js:305). -/
def swapAt (l : List Nat) (j r : Nat) : List Nat :=
  let vj := l.getD j 0
  let vr := l.getD r 0
  (l.set j vr).set r vj

/-- The Fisher-Yates loop `for (let j = arr.length - 1; j > 0; j--) ...`
(obfuscator.js:303-306); the third argument is the loop variable `j`. -/
def fyLoop : List Nat → Nat → Nat → List Nat
  | arr, _, 0 => arr
  | arr, pr, j+1 =>
      let pr2 := lcg pr
      let r := pr2 % (j + 2)
      fyLoop (swapAt arr (j+1) r) pr2 j

/-- The seeded shuffle applied to a chunk's transformed bytes (obfuscator.js:300-306). -/
def fisherYates (arr : List Nat) (seed : Nat) : List Nat :=
  fyLoop arr seed (arr.length - 1)

/-- One chunk record `{seed, keyA, keyB, data: arr}` (obfuscator.js:308). -/
structure Chunk where
  seed : Nat
  keyA : Nat
  keyB : Nat
  data : List Nat

/-- The upper bound of the chunk-length draw,
`Math.max(6, Math.min(32, Math.floor(bytes.length / 2) || 6))`
(obfuscator.js:291); `total` is the full byte array's length. -/
def chunkMaxLen (total : Nat) : Nat :=
  max 6 (min 32 (if total / 2 = 0 then 6 else total / 2))

/-- The chunking loop of `encryptConstantString` (obfuscator.js:288-310) over
the remaining bytes; each chunk consumes four raw draws (length, keyA, keyB,
seed). -/
def encryptChunks (total : Nat) (r : Nat → Nat) : List Nat → Nat → List Chunk
  | [], _ => []
  | b :: bs, k =>
      let len := min (b :: bs).length (randint 6 (chunkMaxLen total) (r k))
      let raw := (b :: bs).take len
      let keyA := randint 1 254 (r (k+1))
      let keyB := randint 1 7 (r (k+2))
      let transformed := raw.map (fun x => rotl8 ((x + keyA) &&& 0xFF) keyB)
      let seed := r (k+3) % 4294967296
      let arr := fisherYates transformed seed
      ⟨seed, keyA, keyB, arr⟩ :: encryptChunks total r ((b :: bs).drop len) (k+4)
  termination_by l _ => l.length
  decreasing_by
    simp only [List.length_drop]
    have h6 : 6 ≤ randint 6 (chunkMaxLen total) (r k) := Nat.le_add_right 6 _
    simp only [List.length_cons]
    omega

/-- The raw (pre-transform) slice each iteration of the chunking loop takes,
`bytes.slice(i, i + len)` (obfuscator.js:292), following the same draws. -/
def rawSlices (total : Nat) (r : Nat → Nat) : List Nat → Nat → List (List Nat)
  | [], _ => []
  | b :: bs, k =>
      let len := min (b :: bs).length (randint 6 (chunkMaxLen total) (r k))
      (b :: bs).take len :: rawSlices total r ((b :: bs).drop len) (k+4)
  termination_by l _ => l.length
  decreasing_by
    simp only [List.length_drop]
    have h6 : 6 ≤ randint 6 (chunkMaxLen total) (r k) := Nat.le_add_right 6 _
    simp only [List.length_cons]
    omega

/-- `function encryptConstantString(str)` (obfuscator.js:285-312). -/
def encryptConstantString (s : String) (r : Nat → Nat) (k : Nat) : List Chunk :=
  encryptChunks (toBytes s).length r (toBytes s) k

theorem fyLoop_length (j : Nat) : ∀ arr pr, (fyLoop arr pr j).length = arr.length := by
  induction j with
  | zero => intro arr pr; rfl
  | succ j ih =>
      intro arr pr
      rw [fyLoop, ih]
      simp [swapAt]

theorem encryptChunks_data_lengths (total : Nat) (r : Nat → Nat) :
    ∀ l k, (encryptChunks total r l k).map (fun ch => ch.data.length)
      = (rawSlices total r l k).map List.length := by
  suffices h : ∀ n (l : List Nat), l.length = n →
      ∀ k, (encryptChunks total r l k).map (fun ch => ch.data.length)
        = (rawSlices total r l k).map List.length by
    intro l k; exact h l.length l rfl k
  intro n
  induction n using Nat.strong_induction_on with
  | _ n ih =>
    intro l hl k
    match l with
    | [] => simp [encryptChunks, rawSlices]
    | b :: bs =>
      rw [encryptChunks, rawSlices]
      simp only [List.map_cons]
      have hd : (((b :: bs).drop
          (min (b :: bs).length (randint 6 (chunkMaxLen total) (r k)))).length
            < n) := by
        have h6 : 6 ≤ randint 6 (chunkMaxLen total) (r k) := Nat.le_add_right 6 _
        simp only [List.length_drop, List.length_cons] at *
        omega
      rw [ih _ hd _ rfl]
      congr 1
      simp [fisherYates, fyLoop_length]

theorem rawSlices_flatten (total : Nat) (r : Nat → Nat) :
    ∀ l k, (rawSlices total r l k).flatten = l := by
  suffices h : ∀ n (l : List Nat), l.length = n →
      ∀ k, (rawSlices total r l k).flatten = l by
    intro l k; exact h l.length l rfl k
  intro n
  induction n using Nat.strong_induction_on with
  | _ n ih =>
    intro l hl k
    match l with
    | [] => simp [rawSlices]
    | b :: bs =>
      rw [rawSlices]
      simp only [List.flatten_cons]
      have hd : (((b :: bs).drop
          (min (b :: bs).length (randint 6 (chunkMaxLen total) (r k)))).length
            < n) := by
        have h6 : 6 ≤ randint 6 (chunkMaxLen total) (r k) := Nat.le_add_right 6 _
        simp only [List.length_drop, List.length_cons] at *
        omega
      rw [ih _ hd _ rfl]
      exact List.take_append_drop _ _

/-- C9: the chunk list produced by `encryptConstantString` partitions the
input's byte sequence: the chunk data lengths are exactly the lengths of the
consecutive raw slices the loop took, those slices concatenate back to
`toBytes s` (each byte covered exactly once, in order), the data lengths sum
to the total byte length, and the empty string yields no chunks. -/
theorem c9_chunks_partition (s : String) (r : Nat → Nat) (k : Nat) :
    (encryptConstantString s r k).map (fun ch => ch.data.length)
        = (rawSlices (toBytes s).length r (toBytes s) k).map List.length
      ∧ (rawSlices (toBytes s).length r (toBytes s) k).flatten = toBytes s
      ∧ ((encryptConstantString s r k).map (fun ch => ch.data.length)).sum
        = (toBytes s).length
      ∧ encryptConstantString "" r k = [] := by
  refine ⟨encryptChunks_data_lengths _ _ _ _, rawSlices_flatten _ _ _ _, ?_, ?_⟩
  · rw [encryptConstantString, encryptChunks_data_lengths]
    calc ((rawSlices (toBytes s).length r (toBytes s) k).map List.length).sum
        = (rawSlices (toBytes s).length r (toBytes s) k).flatten.length := by
          rw [List.length_flatten]
      _ = (toBytes s).length := by rw [rawSlices_flatten]
  · have h : toBytes "" = [] := rfl
    rw [encryptConstantString, h]
    simp [encryptChunks]

/-! ## The decoder the artifact embeds (`buildLuaInterpreter`, obfuscator.js:384-434)

The emitted Lua helpers are modelled over `Nat`; a Lua table holding numbers
is `Nat → Option Nat` with `none` for a missing entry (Lua `nil`), and a Lua
runtime error (arithmetic on nil, indexing a table by nil) is `none` in
`Option`. -/

/-- `local function rotr(v,n) n=n%8; local a=math.floor(v/ (2^n));
local b=(v* (2^(8-n)))%256; return (a + b)%256 end` (obfuscator.js:386). -/
def luaRotr (v n : Nat) : Nat :=
  let m := n % 8
  (v / 2 ^ m + (v * 2 ^ (8 - m)) % 256) % 256

/-- `local function sub(x,k) local r = x - (k%256) if r < 0 then r = r + 256 end
return r end` (obfuscator.js:389). -/
def luaSub (x k : Nat) : Nat :=
  (let r : Int := (x : Int) - ((k : Int) % 256)
   if r < 0 then r + 256 else r).toNat

/-- A Lua table assignment `t[key] = v` (assigning `nil` removes the entry). -/
def tSet (t : Nat → Option Nat) (key : Nat) (v : Option Nat) : Nat → Option Nat :=
  fun x => if x = key then v else t x

/-- The swap loop of the emitted `unshuffle`:
`for i = len-1,1,-1 do local r = prng() % (i+1);
local tmp = idx[i+1]; idx[i+1] = idx[r+1]; idx[r+1] = tmp end`
(obfuscator.js:402-406). The last argument is the loop variable `i`. -/
def unshuffleSwapLoop : (Nat → Option Nat) → Nat → Nat → (Nat → Option Nat)
  | t, _, 0 => t
  | t, pr, i+1 =>
      let pr2 := lcg pr
      let r := pr2 % (i + 2)
      let tmp := t (i + 2)
      let t2 := tSet (tSet t (i + 2) (t (r + 1))) (r + 1) tmp
      unshuffleSwapLoop t2 pr2 i

/-- The emitted `unshuffle(arr, seed)` (obfuscator.js:392-414):
`local idx = {}; for i=1,len do idx[i-1] = i-1 end`, the swap loop, then
`perm[i] = idx[i] + 1` for i=1..len (arithmetic on nil when `idx[i]` is
missing), `inv[perm[i]] = i`, and `out[inv[i]] = arr[i]` (indexing by nil
when `inv[i]` is missing); the caller then reads `out[1..len]`. -/
def luaUnshuffle (arr : List Nat) (seed : Nat) : Option (List Nat) :=
  let len := arr.length
  let idx0 : Nat → Option Nat := fun k => if k < len then some k else none
  let idx := unshuffleSwapLoop idx0 seed (len - 1)
  match (List.range len).mapM (fun i0 => (idx (i0 + 1)).map (· + 1)) with
  | none => none
  | some perm =>
      let inv : Nat → Option Nat :=
        (List.range len).foldl
          (fun t i0 => tSet t (perm.getD i0 0) (some (i0 + 1))) (fun _ => none)
      let outT : Option (Nat → Option Nat) :=
        (List.range len).foldlM
          (fun t i0 => (inv (i0 + 1)).map
            (fun key => tSet t key (some (arr.getD i0 0))))
          (fun _ => none)
      match outT with
      | none => none
      | some out => (List.range len).mapM (fun j => out (j + 1))

/-- The emitted `buildstr(chunks)` (obfuscator.js:417-434): unshuffle each
chunk's data with its seed, rotate each byte right by `b`, subtract `a`, and
concatenate the chunks in order. -/
def luaBuildstr : List Chunk → Option (List Nat)
  | [] => some []
  | ch :: rest => do
      let arr ← luaUnshuffle ch.data ch.seed
      let dec := arr.map (fun v => luaSub (luaRotr v ch.keyB) ch.keyA)
      let restB ← luaBuildstr rest
      pure (dec ++ restB)

theorem mapM_eq_none {α β : Type} (f : α → Option β) :
    ∀ (l : List α), (∃ x ∈ l, f x = none) → l.mapM f = none := by
  intro l
  induction l with
  | nil => rintro ⟨x, hx, -⟩; cases hx
  | cons a as ih =>
      rintro ⟨x, hx, hfx⟩
      rw [List.mapM_cons]
      rcases List.mem_cons.mp hx with h | h
      · subst h; rw [hfx]; rfl
      · cases hfa : f a with
        | none => rfl
        | some b =>
            rw [ih ⟨x, h, hfx⟩]
            rfl

/-- Through the swap loop, some key in `[1, len]` always holds `nil`: the
swaps only move table entries between keys `1..len`. -/
theorem unshuffleSwapLoop_nil :
    ∀ (i : Nat) (t : Nat → Option Nat) (pr len : Nat), i + 1 ≤ len →
      (∃ k, 1 ≤ k ∧ k ≤ len ∧ t k = none) →
      ∃ k, 1 ≤ k ∧ k ≤ len ∧ unshuffleSwapLoop t pr i k = none := by
  intro i
  induction i with
  | zero => intro t pr len _ h; exact h
  | succ i ih =>
      intro t pr len hi ⟨k0, hk1, hk2, hknil⟩
      rw [unshuffleSwapLoop]
      set pr2 := lcg pr with hpr2
      set r := pr2 % (i + 2) with hr
      have hrlt : r < i + 2 := Nat.mod_lt _ (by omega)
      apply ih _ pr2 len (by omega)
      by_cases ha : t (i + 2) = none
      · exact ⟨r + 1, by omega, by omega, by simp [tSet, ha]⟩
      · by_cases hb : k0 = r + 1
        · have hab : i + 2 ≠ r + 1 := by
            intro hcontra
            rw [hcontra, ← hb] at ha
            exact ha hknil
          refine ⟨i + 2, by omega, by omega, ?_⟩
          simp only [tSet, if_neg hab, if_pos rfl]
          rw [← hb]
          exact hknil
        · by_cases hc : k0 = i + 2
          · exact absurd (hc ▸ hknil) ha
          · refine ⟨k0, hk1, hk2, ?_⟩
            simp only [tSet, if_neg hb, if_neg hc]
            exact hknil

/-- The emitted `unshuffle` fails (arithmetic on nil) on every nonempty
array: it initializes index-table keys `0..len-1` but swaps and reads keys
`1..len`. -/
theorem luaUnshuffle_none (arr : List Nat) (seed : Nat) (h : arr ≠ []) :
    luaUnshuffle arr seed = none := by
  have hlen : 1 ≤ arr.length := List.length_pos.mpr h
  rw [luaUnshuffle]
  have hnil : ∃ k, 1 ≤ k ∧ k ≤ arr.length ∧
      unshuffleSwapLoop (fun k => if k < arr.length then some k else none)
        seed (arr.length - 1) k = none := by
    apply unshuffleSwapLoop_nil _ _ _ _ (by omega)
    exact ⟨arr.length, hlen, le_refl _, by simp⟩
  obtain ⟨k, hk1, hk2, hknil⟩ := hnil
  have hmap : (List.range arr.length).mapM
      (fun i0 => (unshuffleSwapLoop (fun k => if k < arr.length then some k else none)
        seed (arr.length - 1) (i0 + 1)).map (· + 1)) = none := by
    apply mapM_eq_none
    refine ⟨k - 1, List.mem_range.mpr (by omega), ?_⟩
    have : k - 1 + 1 = k := by omega
    rw [this, hknil]
    rfl
  rw [hmap]

theorem luaBuildstr_cons_none (ch : Chunk) (rest : List Chunk)
    (h : luaUnshuffle ch.data ch.seed = none) :
    luaBuildstr (ch :: rest) = none := by
  rw [luaBuildstr, h]
  rfl

/-- C1 (the decode path is broken): for every nonempty string constant, the
decoder the artifact embeds errors out on the chunk list that
`encryptConstantString` produced, instead of reproducing the bytes. -/
theorem c1_decode_fails (s : String) (r : Nat → Nat) (k : Nat) (h : s ≠ "") :
    luaBuildstr (encryptConstantString s r k) = none := by
  have hdata : s.data ≠ [] := by
    intro hd
    apply h
    cases s with
    | mk d => cases hd; rfl
  have hbytes : toBytes s ≠ [] := by
    rw [toBytes]
    simpa using hdata
  obtain ⟨b, bs, hbs⟩ := List.exists_cons_of_ne_nil hbytes
  rw [encryptConstantString, hbs, encryptChunks]
  apply luaBuildstr_cons_none
  dsimp only
  apply luaUnshuffle_none
  intro hcontra
  have hl := congrArg List.length hcontra
  rw [fisherYates, fyLoop_length, List.length_map, List.length_take] at hl
  have h6 : 6 ≤ randint 6 (chunkMaxLen (b :: bs).length) (r k) :=
    Nat.le_add_right 6 _
  simp only [List.length_nil, List.length_cons] at hl h6
  omega

/-- Witness for `c1_decode_fails`: the single-byte constant `"A"` cannot be
decoded by the emitted decoder, whatever the keys and seed drawn. -/
theorem c1_decode_fails_witness :
    luaBuildstr (encryptConstantString "A" (fun _ => 0) 0) = none :=
  c1_decode_fails "A" (fun _ => 0) 0 (by decide)

/-! ## Tokenizer (obfuscator.js:31-37)

`tokenize` repeatedly matches
`\s*([A-Za-z_][A-Za-z0-9_]*|"(?:\\.|[^"])*"|'(?:\\.|[^'])*'|\d+\.\d+|\d+|==|~=|<=|>=|\.{2}|.|[\n])\s*`
against the source. Whitespace between tokens is absorbed by the `\s*`
wrappers; the one place the leading `\s*` backtracks observably is an input
that is nothing but whitespace, where the catch-all alternatives match its
last character. The alternatives are tried in the regex's order. -/

def isWs (c : Char) : Bool :=
  c = ' ' || c = '\t' || c = '\n' || c = '\r' || c = '\x0b' || c = '\x0c'

/-- `[A-Za-z_]` -/
def isAlphaU (c : Char) : Bool :=
  ('A' ≤ c && c ≤ 'Z') || ('a' ≤ c && c ≤ 'z') || c = '_'

/-- `[0-9]` -/
def isDigitC (c : Char) : Bool := '0' ≤ c && c ≤ '9'

/-- `[A-Za-z0-9_]` -/
def isAlnumU (c : Char) : Bool := isAlphaU c || isDigitC c

/-- The body of a quoted-string alternative `q(?:\\.|[^q])*q` after its
opening quote: returns the content and the rest after the closing quote, or
`none` when the alternative cannot match (regex backtracking: `\\.` is
preferred, and on failure the backslash alone is consumed by `[^q]`). -/
def scanQuoted (q : Char) : List Char → Option (List Char × List Char)
  | [] => none
  | c :: cs =>
      if c = q then some ([], cs)
      else if c = '\\' then
        match cs with
        | [] => none
        | d :: ds =>
            if d ≠ '\n' then
              match scanQuoted q ds with
              | some (content, rest) => some ('\\' :: d :: content, rest)
              | none =>
                  match scanQuoted q (d :: ds) with
                  | some (content, rest) => some ('\\' :: content, rest)
                  | none => none
            else
              match scanQuoted q (d :: ds) with
              | some (content, rest) => some ('\\' :: content, rest)
              | none => none
      else
        match scanQuoted q cs with
        | some (content, rest) => some (c :: content, rest)
        | none => none

/-- `\d+\.\d+|\d+` with the input known to start with a digit. -/
def scanNumber (cs : List Char) : List Char × List Char :=
  let intPart := cs.takeWhile isDigitC
  let rest := cs.dropWhile isDigitC
  match rest with
  | '.' :: r2 =>
      let frac := r2.takeWhile isDigitC
      if frac = [] then (intPart, rest)
      else (intPart ++ '.' :: frac, r2.dropWhile isDigitC)
  | _ => (intPart, rest)

/-- One token at a non-whitespace position, following the alternation order
of the regex (obfuscator.js:32). -/
def matchTok : List Char → String × List Char
  | [] => ("", [])
  | c :: cs =>
      if isAlphaU c then
        (String.mk (c :: cs.takeWhile isAlnumU), cs.dropWhile isAlnumU)
      else if c = '"' then
        match scanQuoted '"' cs with
        | some (content, rest) => (String.mk ('"' :: content ++ ['"']), rest)
        | none => (String.mk [c], cs)
      else if c = '\'' then
        match scanQuoted '\'' cs with
        | some (content, rest) => (String.mk ('\'' :: content ++ ['\'']), rest)
        | none => (String.mk [c], cs)
      else if isDigitC c then
        let (tk, rest) := scanNumber (c :: cs)
        (String.mk tk, rest)
      else
        match c, cs with
        | '=', '=' :: r => ("==", r)
        | '~', '=' :: r => ("~=", r)
        | '<', '=' :: r => ("<=", r)
        | '>', '=' :: r => (">=", r)
        | '.', '.' :: r => ("..", r)
        | _, _ => (String.mk [c], cs)

def tokLoop : Nat → List Char → List String
  | 0, _ => []
  | _, [] => []
  | fuel+1, c :: cs =>
      let (tk, rest) := matchTok (c :: cs)
      tk :: tokLoop fuel (rest.dropWhile isWs)

/-- `function tokenize(src)` (obfuscator.js:31-37). -/
def tokenize (src : String) : List String :=
  let cs := src.data
  if cs.length ≠ 0 && cs.all isWs then [String.mk [cs.getLastD ' ']]
  else tokLoop (cs.length + 1) (cs.dropWhile isWs)

/-! ## AST (the parser's node objects, obfuscator.js:45-158) -/

inductive Expr where
  | num (value : ℚ)
  | strE (value : String)
  | ident (name : String)
  | callExpr (callee : String) (args : List Expr)
  | binop (op : String) (left right : Expr)
  | nilE

inductive Stmt where
  | localAssign (name : String) (expr : Expr)
  | localDecl (name : String)
  | assign (name : String) (expr : Expr)
  | call (callee : String) (args : List Expr)
  | funcDef (name : String) (params : List String) (body : List Stmt)
  | ret (expr : Expr)
  | whileLoop (cond : Expr) (body : List Stmt)
  | noop

/-! ## Parser (obfuscator.js:38-158)

The parser object's mutable cursor is the state `⟨tokens, i⟩`; `this.next()`
past the end returns `undefined` (`none`) and still increments `i`, as in the
source. The JS recursion needs no fuel; the embedding passes a fuel budget
that is generous for any input, and each function returns its JS value. -/

structure PState where
  t : List String
  i : Nat

/-- `Parser.prototype.peek` (obfuscator.js:41). -/
def PState.peek (st : PState) : Option String := st.t.get? st.i

/-- The cursor advance of `Parser.prototype.next` (obfuscator.js:42). -/
def PState.adv (st : PState) : PState := { st with i := st.i + 1 }

/-- `Parser.prototype.eat` (obfuscator.js:43). -/
def PState.eat (st : PState) (tok : String) : Bool × PState :=
  if st.peek = some tok then (true, st.adv) else (false, st)

/-- `/^[A-Za-z_]/.test(p)` -/
def firstIsAlpha (p : String) : Bool :=
  match p.data with
  | [] => false
  | c :: _ => isAlphaU c

/-- `/^\d/.test(p)` -/
def firstIsDigit (p : String) : Bool :=
  match p.data with
  | [] => false
  | c :: _ => isDigitC c

/-- `(p[0] === '"' && p[p.length-1] === '"') || (p[0] === "'" && p[p.length-1] === "'")`
(obfuscator.js:141). -/
def isStringTok (p : String) : Bool :=
  match p.data with
  | [] => false
  | c :: cs =>
      let lastc := (c :: cs).getLastD ' '
      (c = '"' && lastc = '"') || (c = '\'' && lastc = '\'')

/-- `p.slice(1, -1).replace(/\\n/g,'\n').replace(/\\r/g,'\r')` (obfuscator.js:141). -/
def unescapeNR : List Char → List Char
  | [] => []
  | '\\' :: 'n' :: rest => '\n' :: unescapeNR rest
  | '\\' :: 'r' :: rest => '\r' :: unescapeNR rest
  | c :: rest => c :: unescapeNR rest

def stripQuotes (p : String) : String :=
  String.mk (unescapeNR ((p.data.drop 1).dropLast))

/-- The integer value of a digit run. -/
def digitsVal (cs : List Char) : Nat := cs.foldl (fun a c => a * 10 + (c.toNat - 48)) 0

/-- The part before and (when present) after the first `.`. -/
def splitNum : List Char → List Char × Option (List Char)
  | [] => ([], none)
  | '.' :: rest => ([], some rest)
  | c :: rest =>
      let (a, b) := splitNum rest
      (c :: a, b)

/-- `Number(p)` on the tokenizer's numeric tokens `\d+(\.\d+)?` (obfuscator.js:140). -/
def jsNumber (p : String) : ℚ :=
  match splitNum p.data with
  | (a, none) => (digitsVal a : ℚ)
  | (a, some b) => (digitsVal a : ℚ) + (digitsVal b : ℚ) / ((10 : ℚ) ^ b.length)

mutual

/-- `Parser.prototype.parsePrimary` (obfuscator.js:136-158). -/
def parsePrimary : Nat → PState → Expr × PState
  | 0, st => (Expr.nilE, st)
  | fuel+1, st =>
      match st.peek with
      | none => (Expr.nilE, st)
      | some p =>
          if p = "(" then
            let (e, st1) := parseExpression fuel st.adv
            let (_, st2) := st1.eat ")"
            (e, st2)
          else if firstIsDigit p then (Expr.num (jsNumber p), st.adv)
          else if isStringTok p then (Expr.strE (stripQuotes p), st.adv)
          else if firstIsAlpha p then
            let st1 := st.adv
            if st1.peek = some "(" then
              let (args, st2) := parseArgs fuel st1.adv
              let (_, st3) := st2.eat ")"
              (Expr.callExpr p args, st3)
            else (Expr.ident p, st1)
          else (Expr.nilE, st.adv)

/-- The argument-list loop shared by statement calls and call expressions
(obfuscator.js:105-109 and 146-150). -/
def parseArgs : Nat → PState → List Expr × PState
  | 0, st => ([], st)
  | fuel+1, st =>
      match st.peek with
      | none => ([], st)
      | some p =>
          if p = ")" then ([], st)
          else if p = "," then parseArgs fuel st.adv
          else
            let (e, st1) := parseExpression fuel st
            let (es, st2) := parseArgs fuel st1
            (e :: es, st2)

/-- The `*`/`/` loop of `parseMul` (obfuscator.js:133). -/
def parseMulLoop : Nat → Expr → PState → Expr × PState
  | 0, left, st => (left, st)
  | fuel+1, left, st =>
      if st.peek = some "*" ∨ st.peek = some "/" then
        let op := st.peek.getD ""
        let (right, st1) := parsePrimary fuel st.adv
        parseMulLoop fuel (Expr.binop op left right) st1
      else (left, st)

/-- `Parser.prototype.parseMul` (obfuscator.js:131-135). -/
def parseMul : Nat → PState → Expr × PState
  | 0, st => (Expr.nilE, st)
  | fuel+1, st =>
      let (left, st1) := parsePrimary fuel st
      parseMulLoop fuel left st1

/-- The `+`/`-` loop of `parseAdd` (obfuscator.js:128). -/
def parseAddLoop : Nat → Expr → PState → Expr × PState
  | 0, left, st => (left, st)
  | fuel+1, left, st =>
      if st.peek = some "+" ∨ st.peek = some "-" then
        let op := st.peek.getD ""
        let (right, st1) := parseMul fuel st.adv
        parseAddLoop fuel (Expr.binop op left right) st1
      else (left, st)

/-- `Parser.prototype.parseAdd` (obfuscator.js:126-130). -/
def parseAdd : Nat → PState → Expr × PState
  | 0, st => (Expr.nilE, st)
  | fuel+1, st =>
      let (left, st1) := parseMul fuel st
      parseAddLoop fuel left st1

/-- The `..` loop of `parseConcat` (obfuscator.js:123). -/
def parseConcatLoop : Nat → Expr → PState → Expr × PState
  | 0, left, st => (left, st)
  | fuel+1, left, st =>
      if st.peek = some ".." then
        let (right, st1) := parseAdd fuel st.adv
        parseConcatLoop fuel (Expr.binop ".." left right) st1
      else (left, st)

/-- `Parser.prototype.parseConcat` (obfuscator.js:121-125). -/
def parseConcat : Nat → PState → Expr × PState
  | 0, st => (Expr.nilE, st)
  | fuel+1, st =>
      let (left, st1) := parseAdd fuel st
      parseConcatLoop fuel left st1

/-- `Parser.prototype.parseExpression` (obfuscator.js:120). -/
def parseExpression : Nat → PState → Expr × PState
  | 0, st => (Expr.nilE, st)
  | fuel+1, st => parseConcat fuel st

end

/-- `Parser.prototype.parseStatement` (obfuscator.js:96-118). -/
def parseStatement : Nat → PState → Stmt × PState
  | 0, st => (Stmt.noop, st)
  | fuel+1, st =>
      match st.peek with
      | none => (Stmt.noop, st)
      | some p =>
          if p = "" then (Stmt.noop, st)
          else if p = "return" then
            let (e, st1) := parseExpression fuel st.adv
            (Stmt.ret e, st1)
          else if firstIsAlpha p then
            let st1 := st.adv
            if st1.peek = some "=" then
              let (e, st2) := parseExpression fuel st1.adv
              (Stmt.assign p e, st2)
            else if st1.peek = some "(" then
              let (args, st2) := parseArgs fuel st1.adv
              let (_, st3) := st2.eat ")"
              (Stmt.call p args, st3)
            else (Stmt.noop, st1)
          else (Stmt.noop, st.adv)

mutual

/-- The parameter loop of the `function` case (obfuscator.js:66-71). -/
def parseParams : Nat → PState → List String × PState
  | 0, st => ([], st)
  | fuel+1, st =>
      match st.peek with
      | none => ([], st)
      | some p =>
          if p = ")" then ([], st)
          else if p = "," then parseParams fuel st.adv
          else
            let (ps, st1) := parseParams fuel st.adv
            (p :: ps, st1)

/-- The body loop of the `function` case (obfuscator.js:73-76). -/
def parseFnBody : Nat → PState → List Stmt × PState
  | 0, st => ([], st)
  | fuel+1, st =>
      match st.peek with
      | none => ([], st)
      | some p =>
          if p = "end" then ([], st)
          else
            let (s, st1) := parseStatement fuel st
            let (ss, st2) := parseFnBody fuel st1
            (s :: ss, st2)

/-- The `for` skip, `while (this.peek() && this.peek() !== 'end') this.next();`
(obfuscator.js:86); an empty-string token is falsy and stops the loop. -/
def skipFor : Nat → PState → PState
  | 0, st => st
  | fuel+1, st =>
      match st.peek with
      | none => st
      | some p =>
          if p = "" then st
          else if p = "end" then st
          else skipFor fuel st.adv

/-- `Parser.prototype.parseChunk`'s statement loop (obfuscator.js:45-94). -/
def parseChunkLoop : Nat → PState → List Stmt × PState
  | 0, st => ([], st)
  | fuel+1, st =>
      if st.i < st.t.length then
        match st.peek with
        | none => ([], st)
        | some p =>
            if p = "" then ([], st)
            else if p = "local" then
              let st1 := st.adv
              let name := st1.peek.getD ""
              let st2 := st1.adv
              let (ok, st3) := st2.eat "="
              if ok then
                let (e, st4) := parseExpression fuel st3
                let (rest, st5) := parseChunkLoop fuel st4
                (Stmt.localAssign name e :: rest, st5)
              else
                let (rest, st4) := parseChunkLoop fuel st3
                (Stmt.localDecl name :: rest, st4)
            else if p = "function" then
              let st1 := st.adv
              let name := st1.peek.getD ""
              let st2 := st1.adv
              let (_, st3) := st2.eat "("
              let (params, st4) := parseParams fuel st3
              let (_, st5) := st4.eat ")"
              let (fbody, st6) := parseFnBody fuel st5
              let (_, st7) := st6.eat "end"
              let (rest, st8) := parseChunkLoop fuel st7
              (Stmt.funcDef name params fbody :: rest, st8)
            else if p = "for" then
              let st1 := skipFor fuel st.adv
              let (_, st2) := st1.eat "end"
              parseChunkLoop fuel st2
            else
              let (s, st1) := parseStatement fuel st
              let (rest, st2) := parseChunkLoop fuel st1
              (s :: rest, st2)
      else ([], st)

end

/-- `new Parser(tokens)` followed by `parseChunk()` (obfuscator.js:585-587);
the chunk node's `body`. The fuel is a budget no parse of `toks` can exhaust
for the inputs considered here. -/
def parseChunkTop (toks : List String) : List Stmt :=
  (parseChunkLoop ((toks.length + 4) * 8) ⟨toks, 0⟩).1

/-! ## Bytecode builder (obfuscator.js:160-279) -/

namespace OPC

def PUSHK : Nat := 1
def GETG : Nat := 2
def SETG : Nat := 3
def GETL : Nat := 4
def SETL : Nat := 5
def CALL : Nat := 6
def RETURN : Nat := 7
def ADD : Nat := 8
def SUB : Nat := 9
def MUL : Nat := 10
def DIV : Nat := 11
def CONCAT : Nat := 12
def JMP : Nat := 13
def JZ : Nat := 14
def CLOSE : Nat := 255

end OPC

/-- A constant-pool value: `null`, a number, a string, or a nested function
record `{consts, names, code}` (obfuscator.js:227). -/
inductive Const where
  | nilC
  | num (v : ℚ)
  | strC (s : String)
  | fnObj (consts : List Const) (names : List String) (code : List Nat)

mutual

/-- The equality test of `addConst` (obfuscator.js:182-190): `===` on
primitives, `JSON.stringify` comparison (structural equality) when both
values are objects. -/
def constBeq : Const → Const → Bool
  | Const.nilC, Const.nilC => true
  | Const.num a, Const.num b => a == b
  | Const.strC a, Const.strC b => a == b
  | Const.fnObj c1 n1 k1, Const.fnObj c2 n2 k2 =>
      constsBeq c1 c2 && n1 == n2 && k1 == k2
  | _, _ => false

def constsBeq : List Const → List Const → Bool
  | [], [] => true
  | a :: as, b :: bs => constBeq a b && constsBeq as bs
  | _, _ => false

end

/-- `function BytecodeBuilder()` state (obfuscator.js:179-181); `localSlots`
is the JS object as an association list (insertion order, unique keys). -/
structure Builder where
  consts : List Const
  names : List String
  code : List Nat
  localSlots : List (String × Nat)
  nextLocal : Nat

def Builder.new : Builder := ⟨[], [], [], [], 0⟩

/-- `BytecodeBuilder.prototype.emit` (obfuscator.js:194). -/
def Builder.emit (b : Builder) (xs : List Nat) : Builder :=
  { b with code := b.code ++ xs }

def slotsLookup (slots : List (String × Nat)) (n : String) : Option Nat :=
  (slots.find? (fun p => p.1 == n)).map Prod.snd

def slotsSet (slots : List (String × Nat)) (n : String) (v : Nat) : List (String × Nat) :=
  match slots with
  | [] => [(n, v)]
  | (m, w) :: rest => if m = n then (m, v) :: rest else (m, w) :: slotsSet rest n v

/-- `BytecodeBuilder.prototype.newLocal` (obfuscator.js:195). -/
def Builder.newLocal (b : Builder) (name : String) : Builder × Nat :=
  match slotsLookup b.localSlots name with
  | some s => (b, s)
  | none =>
      let s := b.nextLocal
      ({ b with localSlots := slotsSet b.localSlots name s, nextLocal := s + 1 }, s)

/-- `BytecodeBuilder.prototype.addConst` (obfuscator.js:182-190). -/
def Builder.addConst (b : Builder) (v : Const) : Builder × Nat :=
  match b.consts.findIdx? (fun c => constBeq c v) with
  | some i => (b, i)
  | none => ({ b with consts := b.consts ++ [v] }, b.consts.length)

/-- `BytecodeBuilder.prototype.addName` (obfuscator.js:191-193). -/
def Builder.addName (b : Builder) (n : String) : Builder × Nat :=
  match b.names.findIdx? (fun m => m == n) with
  | some i => (b, i)
  | none => ({ b with names := b.names ++ [n] }, b.names.length)

mutual

/-- `BytecodeBuilder.prototype.buildExpr` (obfuscator.js:252-279). -/
def buildExpr : Builder → Expr → Builder
  | b, Expr.num v =>
      let (b1, i) := b.addConst (Const.num v)
      b1.emit [OPC.PUSHK, i]
  | b, Expr.strE s =>
      let (b1, i) := b.addConst (Const.strC s)
      b1.emit [OPC.PUSHK, i]
  | b, Expr.ident n =>
      match slotsLookup b.localSlots n with
      | some s => b.emit [OPC.GETL, s]
      | none =>
          let (b1, i) := b.addName n
          b1.emit [OPC.GETG, i]
  | b, Expr.callExpr callee args =>
      let b1 := match slotsLookup b.localSlots callee with
        | some s => b.emit [OPC.GETL, s]
        | none =>
            let (b2, i) := b.addName callee
            b2.emit [OPC.GETG, i]
      let b3 := buildExprList b1 args
      b3.emit [OPC.CALL, args.length]
  | b, Expr.binop op l rr =>
      let b1 := buildExpr b l
      let b2 := buildExpr b1 rr
      if op = "+" then b2.emit [OPC.ADD]
      else if op = "-" then b2.emit [OPC.SUB]
      else if op = "*" then b2.emit [OPC.MUL]
      else if op = "/" then b2.emit [OPC.DIV]
      else if op = ".." then b2.emit [OPC.CONCAT]
      else b2.emit [OPC.ADD]
  | b, Expr.nilE =>
      let (b1, i) := b.addConst Const.nilC
      b1.emit [OPC.PUSHK, i]

def buildExprList : Builder → List Expr → Builder
  | b, [] => b
  | b, e :: es => buildExprList (buildExpr b e) es

/-- `BytecodeBuilder.prototype.buildFromAst` on one statement
(obfuscator.js:197-250); an AST type with no matching case (`local_decl`)
falls through and emits nothing. -/
def buildStmt : Builder → Stmt → Builder
  | b, Stmt.localAssign name e =>
      let (b1, slot) := b.newLocal name
      let b2 := buildExpr b1 e
      b2.emit [OPC.SETL, slot]
  | b, Stmt.assign name e =>
      let b1 := buildExpr b e
      let (b2, idx) := b1.addName name
      b2.emit [OPC.SETG, idx]
  | b, Stmt.call callee args =>
      let (b1, idx) := b.addName callee
      let b2 := b1.emit [OPC.GETG, idx]
      let b3 := buildExprList b2 args
      b3.emit [OPC.CALL, args.length]
  | b, Stmt.funcDef name params body =>
      let child0 : Builder :=
        { Builder.new with
            localSlots := params.enum.foldl (fun sl p => slotsSet sl p.2 p.1) []
            nextLocal := params.length }
      let child1 := buildStmtList child0 body
      let child2 := child1.emit [OPC.RETURN, 0]
      let child3 := child2.emit [OPC.CLOSE]
      let fn := Const.fnObj child3.consts child3.names child3.code
      let (b1, cidx) := b.addConst fn
      let (b2, nameIdx) := b1.addName name
      let b3 := b2.emit [OPC.PUSHK, cidx]
      b3.emit [OPC.SETG, nameIdx]
  | b, Stmt.ret e =>
      let b1 := buildExpr b e
      b1.emit [OPC.RETURN, 1]
  | b, Stmt.whileLoop cond body =>
      let start := b.code.length
      let b1 := buildExpr b cond
      let b2 := b1.emit [OPC.JZ, 0]
      let jz := b2.code.length - 1
      let b3 := buildStmtList b2 body
      let b4 := b3.emit [OPC.JMP, start]
      let endPos := b4.code.length
      { b4 with code := b4.code.set (jz + 1) endPos }
  | b, Stmt.noop => b
  | b, Stmt.localDecl _ => b

def buildStmtList : Builder → List Stmt → Builder
  | b, [] => b
  | b, s :: ss => buildStmtList (buildStmt b s) ss

end

/-- `buildFromAst` on the chunk node (obfuscator.js:199). -/
def buildChunk (body : List Stmt) : Builder :=
  (buildStmtList Builder.new body).emit [OPC.CLOSE]

/-- C4 (code bug): the parser has no `while` case at all. On
`local i = 0 while i < 5 do i = i + 1 end` the keyword `while` is consumed
as a plain identifier and folded into a Noop; no While node appears in the
AST, and the emitted instruction stream holds no JUMP-IF-FALSE (`JZ`, 14)
and no JUMP (`JMP`, 13) — the loop is compiled away, not lowered. -/
theorem c4_while_not_parsed :
    parseChunkTop (tokenize "local i = 0 while i < 5 do i = i + 1 end")
        = [Stmt.localAssign "i" (Expr.num ((0 : Nat) : ℚ)),
           Stmt.noop, Stmt.noop, Stmt.noop, Stmt.noop, Stmt.noop,
           Stmt.assign "i" (Expr.binop "+" (Expr.ident "i") (Expr.num ((1 : Nat) : ℚ))),
           Stmt.noop]
      ∧ (buildChunk (parseChunkTop
            (tokenize "local i = 0 while i < 5 do i = i + 1 end"))).code
          = [OPC.PUSHK, 0, OPC.SETL, 0,
             OPC.GETL, 0, OPC.PUSHK, 1, OPC.ADD, OPC.SETG, 0, OPC.CLOSE]
      ∧ OPC.JZ ∉ (buildChunk (parseChunkTop
            (tokenize "local i = 0 while i < 5 do i = i + 1 end"))).code
      ∧ OPC.JMP ∉ (buildChunk (parseChunkTop
            (tokenize "local i = 0 while i < 5 do i = i + 1 end"))).code := by
  refine ⟨rfl, rfl, ?_, ?_⟩ <;> decide

/-- C5 (code bug): backpatching a `while` loop writes the slot after the
placeholder. For the AST `while 1 do x = 2 end` the emitter produces
`[PUSHK,0, JZ,0, 10,1, SETG,0, JMP,0, CLOSE]`: the `JZ` placeholder operand
(index 3) still holds the sentinel 0, while the loop-exit position 10 has
overwritten index 4 — the first opcode of the loop body (`this.code[jz + 1]
= end` with `jz` already the operand's index). -/
theorem c5_backpatch_misses_placeholder :
    (buildChunk [Stmt.whileLoop (Expr.num ((1 : Nat) : ℚ))
        [Stmt.assign "x" (Expr.num ((2 : Nat) : ℚ))]]).code
        = [OPC.PUSHK, 0, OPC.JZ, 0, 10, 1, OPC.SETG, 0, OPC.JMP, 0, OPC.CLOSE]
      ∧ (buildChunk [Stmt.whileLoop (Expr.num ((1 : Nat) : ℚ))
          [Stmt.assign "x" (Expr.num ((2 : Nat) : ℚ))]]).code.get? 3 = some 0
      ∧ (buildChunk [Stmt.whileLoop (Expr.num ((1 : Nat) : ℚ))
          [Stmt.assign "x" (Expr.num ((2 : Nat) : ℚ))]]).code.get? 4 = some 10 :=
  ⟨rfl, rfl, rfl⟩

/-- C6 counterexample: the parser does not build anything for a numeric
`for` statement — `for i = 1 , 3 do x = 2 end` parses to an empty chunk and
compiles to just `[CLOSE]`; the body assignment `x = 2` is discarded, not
lowered. -/
theorem c6_for_not_lowered :
    parseChunkTop (tokenize "for i = 1, 3 do x = 2 end") = []
      ∧ (buildChunk (parseChunkTop (tokenize "for i = 1, 3 do x = 2 end"))).code
          = [OPC.CLOSE] :=
  ⟨rfl, rfl⟩

/-- C6 as amended: the parser skips numeric `for` statements: it consumes
every token through the closing `end` and produces no AST node, so the
statement and its body contribute nothing to the instruction stream. -/
theorem c6_for_skipped :
    parseChunkTop ["for", "i", "=", "1", ",", "3", "do", "x", "=", "2", "end"] = []
      ∧ (buildChunk (parseChunkTop
          ["for", "i", "=", "1", ",", "3", "do", "x", "=", "2", "end"])).code
        = [OPC.CLOSE] :=
  ⟨rfl, rfl⟩

/-! ## Serialization (obfuscator.js:314-360) and artifact assembly (373-575)

The artifact text is assembled as `List Char` (Unicode scalars) and, at the
padding/truncation boundary where JS's two length notions diverge, converted
to its UTF-16 code units (`List Nat`), which is what a JS string is: the
padding loop compares `Buffer.byteLength(out, 'utf8')` (UTF-8 bytes, with a
surrogate pair worth 4 and a lone surrogate worth 3 for Node's U+FFFD
replacement), while `out.slice(0, targetSize)` cuts UTF-16 code units. The
two agree only on ASCII text; source identifiers reaching the names table
can be non-ASCII, so the model keeps both notions. -/

/-- The characters of a JS string literal. -/
def S (s : String) : List Char := s.data

/-- Decimal digits of a natural number, as `String(n)` renders it. -/
def natDigits (n : Nat) : List Char := (toString n).data

/-- `String(c)` for a JS number `c` (obfuscator.js:319): an integer prints
with no point; a finite decimal fraction prints its shortest exact decimal
(the only numbers the pipeline builds are values of `\d+(\.\d+)?` literals). -/
def numToString (q : ℚ) : List Char :=
  if q.den = 1 then
    (if q.num < 0 then ['-'] else []) ++ natDigits q.num.natAbs
  else
    match (List.range 40).find? (fun k => 10 ^ (k + 1) % q.den = 0) with
    | some k0 =>
        let k := k0 + 1
        let m := q.num.natAbs * 10 ^ k / q.den
        let fr := natDigits (m % 10 ^ k)
        (if q.num < 0 then ['-'] else []) ++ natDigits (m / 10 ^ k) ++ '.' ::
          (List.replicate (k - fr.length) '0' ++ fr)
    | none => natDigits q.num.natAbs

/-- `String(n).replace(/"/g,'\\"')` (obfuscator.js:338,345). -/
def escQuotes : List Char → List Char
  | [] => []
  | '"' :: rest => '\\' :: '"' :: escQuotes rest
  | c :: rest => c :: escQuotes rest

/-- `"${String(n).replace(/"/g,'\\"')}"` -/
def luaQuote (n : String) : List Char := '"' :: (escQuotes n.data ++ ['"'])

/-- `function bytesToLuaArray(b) { return b.map(x => String(x)).join(','); }`
(obfuscator.js:26). -/
def bytesToLuaArray (b : List Nat) : List Char :=
  List.intercalate [','] (b.map natDigits)

/-- `{ seed=${ch.seed}, a=${ch.keyA}, b=${ch.keyB}, data={${bytesToLuaArray(ch.data)}} }`
(obfuscator.js:323,333). -/
def chunkLua (ch : Chunk) : List Char :=
  S "\x7b seed=" ++ natDigits ch.seed ++ S ", a=" ++ natDigits ch.keyA ++
    S ", b=" ++ natDigits ch.keyB ++ S ", data=\x7b" ++ bytesToLuaArray ch.data ++
    S "\x7d \x7d"

/-- `{__s=true, chunks={${chunksLua}}}` (obfuscator.js:324,334). -/
def strConstLua (chunks : List Chunk) : List Char :=
  S "\x7b__s=true, chunks=\x7b" ++ List.intercalate [','] (chunks.map chunkLua) ++
    S "\x7d\x7d"

/-- The nested-constant serialization inside a function record
(obfuscator.js:328-337): strings are chunk-encrypted (consuming four raw
draws per chunk), numbers and `null` pass through, anything else (including a
doubly nested function record) serializes as `nil`. -/
def serializeNestedConsts (r : Nat → Nat) : List Const → Nat → List (List Char) × Nat
  | [], k => ([], k)
  | c :: cs, k =>
      let (one, k1) :=
        match c with
        | Const.nilC => (S "nil", k)
        | Const.num q => (numToString q, k)
        | Const.strC s =>
            let chunks := encryptConstantString s r k
            (strConstLua chunks, k + 4 * chunks.length)
        | Const.fnObj _ _ _ => (S "nil", k)
      let (restL, k2) := serializeNestedConsts r cs k1
      (one :: restL, k2)

/-- One top-level constant's serialization (obfuscator.js:317-343). -/
def serializeConst (r : Nat → Nat) : Const → Nat → List Char × Nat
  | Const.nilC, k => (S "nil", k)
  | Const.num q, k => (numToString q, k)
  | Const.strC s, k =>
      let chunks := encryptConstantString s r k
      (strConstLua chunks, k + 4 * chunks.length)
  | Const.fnObj cs ns code, k =>
      let (ncs, k2) := serializeNestedConsts r cs k
      (S "\x7b consts = \x7b " ++ List.intercalate [','] ncs ++
        S " \x7d, names = \x7b " ++ List.intercalate [','] (ns.map luaQuote) ++
        S " \x7d, code = \x7b " ++ List.intercalate [','] (code.map natDigits) ++
        S " \x7d \x7d", k2)

def serializeConsts (r : Nat → Nat) : List Const → Nat → List (List Char) × Nat
  | [], k => ([], k)
  | c :: cs, k =>
      let (one, k1) := serializeConst r c k
      let (restL, k2) := serializeConsts r cs k1
      (one :: restL, k2)

/-- `Object.keys(OPC)` in insertion order (obfuscator.js:161-177). -/
def opcKeys : List String :=
  ["PUSHK", "GETG", "SETG", "GETL", "SETL", "CALL", "RETURN", "ADD", "SUB",
   "MUL", "DIV", "CONCAT", "JMP", "JZ", "CLOSE"]

/-- `Object.keys(permutedOps).map(k => k=v).join(',')` (obfuscator.js:349);
`vals` is the outcome of the per-build value shuffle. -/
def opsLua (vals : List Nat) : List Char :=
  List.intercalate [',']
    ((opcKeys.zip vals).map (fun p => S p.1 ++ S "=" ++ natDigits p.2))

/-- `function serializeProgram(builder, permutedOps)` (obfuscator.js:315-360). -/
def serializeProgram (b : Builder) (permVals : List Nat) (r : Nat → Nat)
    (k : Nat) : List Char :=
  S "\nPROGRAM = \x7b\n  ops = \x7b " ++ opsLua permVals ++
    S " \x7d,\n  consts = \x7b " ++
    List.intercalate [','] (serializeConsts r b.consts k).1 ++
    S " \x7d,\n  names = \x7b " ++
    List.intercalate [','] (b.names.map luaQuote) ++
    S " \x7d,\n  code = \x7b " ++
    List.intercalate [','] (b.code.map natDigits) ++
    S " \x7d\n\x7d\n"

/-- The first interpreter template literal (obfuscator.js:384-461): decode helpers, constant decoding, `local OPS = \x7b\x7d`. -/
def interpPartA (rotrN subN unshN bstrN : String) : List Char :=
  S "\n-- helper: rotate-right 8-bit\nlocal function " ++
  S rotrN ++
  S "(v,n) n=n%8; local a=math.floor(v/ (2^n)); local b=(v* (2^(8-n)))%256; return (a + b)%256 end\n\n" ++
  S "-- helper: subtract keyA modulo 256\nlocal function " ++
  S subN ++
  S "(x,k) local r = x - (k%256) if r < 0 then r = r + 256 end return r end\n\n" ++
  S "-- helper: unshuffle using same PRNG (linear congruential style)\nlocal function " ++
  S unshN ++
  S "(arr, seed)\n  local len = #arr\n  local idx = \x7b\x7d\n  for i=1,len do idx[i-1] = i-1 end\n" ++
  S "  local swaps = \x7b\x7d\n  local pr = seed\n  local function prng()\n" ++
  S "    pr = (1103515245 * pr + 12345) % 4294967296\n    return pr\n  end\n  for i = len-1,1,-1 do\n" ++
  S "    local r = prng() % (i+1)\n    swaps[#swaps+1] = \x7bi, r\x7d\n" ++
  S "    local tmp = idx[i+1]; idx[i+1] = idx[r+1]; idx[r+1] = tmp\n  end\n  local perm = \x7b\x7d\n" ++
  S "  for i=1,len do perm[i] = idx[i] + 1 end\n  local inv = \x7b\x7d\n  for i=1,len do inv[perm[i]] = i end\n" ++
  S "  local out = \x7b\x7d\n  for i=1,len do out[inv[i]] = arr[i] end\n  return out\nend\n\n" ++
  S "-- build string from chunks (chunks: \x7b \x7bseed=.., a=.., b=.., data=\x7b..\x7d\x7d, ... \x7d)\n" ++
  S "local function " ++
  S bstrN ++
  S "(chunks)\n  local bytes = \x7b\x7d\n  for ci=1,#chunks do\n    local ch = chunks[ci]\n" ++
  S "    local data = ch.data\n    -- unshuffle using seed\n    local arr = " ++
  S unshN ++
  S "(data, ch.seed)\n    -- rotate-right by b and subtract a\n    for j=1,#arr do\n      local v = " ++
  S rotrN ++
  S "(arr[j], ch.b)\n      v = " ++
  S subN ++
  S "(v, ch.a)\n      bytes[#bytes+1] = v\n    end\n  end\n  local out = \x7b\x7d\n" ++
  S "  for i=1,#bytes do out[i] = string.char(bytes[i]) end\n  return table.concat(out)\nend\n\n" ++
  S "-- decode all program constants into runtime consts\nlocal RCONST = \x7b\x7d\nfor i=1,#PROGRAM.consts do\n" ++
  S "  local c = PROGRAM.consts[i]\n  if type(c) == \x27table\x27 and c.__s then\n    RCONST[i] = " ++
  S bstrN ++
  S "(c.chunks)\n  elseif type(c) == \x27number\x27 or type(c)==\x27string\x27 or c==nil then\n    RCONST[i] = c\n" ++
  S "  else\n    -- nested function object table: build runtime object with decoded consts\n" ++
  S "    if type(c) == \x27table\x27 and c.consts then\n" ++
  S "      local nested = \x7b consts = \x7b\x7d, names = c.names, code = c.code \x7d\n      for j=1,#c.consts do\n" ++
  S "        local nc = c.consts[j]\n        if type(nc) == \x27table\x27 and nc.__s then nested.consts[j] = " ++
  S bstrN ++
  S "(nc.chunks) else nested.consts[j] = nc end\n      end\n      RCONST[i] = nested\n    else\n" ++
  S "      RCONST[i] = c\n    end\n  end\nend\n\n-- op mapping\nlocal OPS = \x7b\x7d\n"

/-- The second interpreter template literal (obfuscator.js:467-563): the VM dispatch loop and the final `pcall`. -/
def interpPartB (bstrN runN : String) : List Char :=
  S "\nlocal function " ++
  S runN ++
  S "()\n  local code = PROGRAM.code\n  local names = PROGRAM.names\n  local ip = 1\n  local stack = \x7b\x7d\n" ++
  S "  local locals = \x7b\x7d\n  local function push(v) stack[#stack+1] = v end\n" ++
  S "  local function pop() local v = stack[#stack]; stack[#stack] = nil; return v end\n  while ip <= #code do\n" ++
  S "    local op = code[ip]; ip = ip + 1\n    if op == OPS.PUSHK then\n      local idx = code[ip]; ip = ip + 1\n" ++
  S "      local val = RCONST[idx+1]\n      -- if nested function object, create closure that runs it\n" ++
  S "      if type(val) == \x27table\x27 and val.code then\n        local child = val\n" ++
  S "        local function closure(...)\n          local child_const_r = \x7b\x7d\n" ++
  S "          for ii=1,#child.consts do child_const_r[ii] = child.consts[ii] end\n" ++
  S "          -- run child code (simple runner)\n" ++
  S "          -- implement minimal runner for nested function (recurse)\n          local saved_prog = PROGRAM\n" ++
  S "          local saved_RCONST = RCONST\n" ++
  S "          PROGRAM = \x7b code = child.code, names = child.names, consts = child.consts \x7d\n" ++
  S "          -- decode child\x27s consts on the fly\n          local child_runtime_consts = \x7b\x7d\n" ++
  S "          for cidx=1,#child.consts do\n            local cc = child.consts[cidx]\n" ++
  S "            if type(cc)==\x27table\x27 and cc.__s then child_runtime_consts[cidx] = " ++
  S bstrN ++
  S "(cc.chunks) else child_runtime_consts[cidx] = cc end\n          end\n          RCONST = child_runtime_consts\n" ++
  S "          local res\n          do\n            local ip2 = 1\n            local stack2 = \x7b\x7d\n" ++
  S "            local function push2(v) stack2[#stack2+1] = v end\n" ++
  S "            local function pop2() local v = stack2[#stack2]; stack2[#stack2] = nil; return v end\n" ++
  S "            while ip2 <= #child.code do\n              local op2 = child.code[ip2]; ip2 = ip2 + 1\n" ++
  S "              if op2 == OPS.PUSHK then local idx2 = child.code[ip2]; ip2 = ip2 + 1; push2(child_runtime_consts[idx2+1])\n" ++
  S "              elseif op2 == OPS.GETG then local nidx = child.code[ip2]; ip2 = ip2 + 1; push2(_G[child.names[nidx+1]])\n" ++
  S "              elseif op2 == OPS.CALL then local nargs = child.code[ip2]; ip2 = ip2 + 1; local args = \x7b\x7d for ri=1,nargs do args[nargs-ri+1] = pop2() end; local fnc = pop2(); if type(fnc)==\x27function\x27 then local ok,r = pcall(fnc, table.unpack(args)); if ok then push2(r) else push2(nil) end else push2(nil) end\n" ++
  S "              elseif op2 == OPS.RETURN then local n = child.code[ip2]; ip2 = ip2 + 1; local outt = \x7b\x7d; for ri=1,n do outt[n-ri+1] = pop2() end; res = table.unpack(outt); break\n" ++
  S "              elseif op2 == OPS.CLOSE then break\n              else\n" ++
  S "                -- arithmetic ops limited in nested POC\n" ++
  S "                if op2 == OPS.ADD then local b=pop2(); local a=pop2(); push2(a+b)\n" ++
  S "                elseif op2 == OPS.CONCAT then local b=pop2(); local a=pop2(); push2(tostring(a)..tostring(b))\n" ++
  S "                else\n                  -- unsupported op: ignore\n                end\n              end\n" ++
  S "            end\n          end\n          -- restore globals\n          PROGRAM = saved_prog\n" ++
  S "          RCONST = saved_RCONST\n          return res\n        end\n        push(closure)\n      else\n" ++
  S "        push(val)\n      end\n    elseif op == OPS.GETG then\n      local nidx = code[ip]; ip = ip + 1\n" ++
  S "      push(_G[names[nidx+1]])\n    elseif op == OPS.SETG then\n      local nidx = code[ip]; ip = ip + 1\n" ++
  S "      local v = pop(); _G[names[nidx+1]] = v\n    elseif op == OPS.GETL then\n" ++
  S "      local slot = code[ip]; ip = ip + 1; push(locals[slot+1])\n    elseif op == OPS.SETL then\n" ++
  S "      local slot = code[ip]; ip = ip + 1; locals[slot+1] = pop()\n    elseif op == OPS.CALL then\n" ++
  S "      local nargs = code[ip]; ip = ip + 1; local args = \x7b\x7d for i=1,nargs do args[nargs-i+1] = pop() end; local fn = pop()\n" ++
  S "      if type(fn) == \x27function\x27 then local ok,res = pcall(fn, table.unpack(args)); if ok then push(res) else push(nil) end else push(nil) end\n" ++
  S "    elseif op == OPS.RETURN then\n" ++
  S "      local n = code[ip]; ip = ip + 1; local out = \x7b\x7d; for i=1,n do out[n-i+1] = pop() end; return table.unpack(out)\n" ++
  S "    elseif op == OPS.ADD then local b=pop(); local a=pop(); push(a + b)\n" ++
  S "    elseif op == OPS.SUB then local b=pop(); local a=pop(); push(a - b)\n" ++
  S "    elseif op == OPS.MUL then local b=pop(); local a=pop(); push(a * b)\n" ++
  S "    elseif op == OPS.DIV then local b=pop(); local a=pop(); push(a / b)\n" ++
  S "    elseif op == OPS.CONCAT then local b=pop(); local a=pop(); push(tostring(a)..tostring(b))\n" ++
  S "    elseif op == OPS.JMP then local target = code[ip]; ip = target + 1\n" ++
  S "    elseif op == OPS.JZ then local target = code[ip]; ip = ip + 1; local v = pop(); if not v then ip = target + 1 end\n" ++
  S "    elseif op == OPS.CLOSE then break\n    else\n      -- unknown opcode: break\n      break\n    end\n  end\n" ++
  S "end\n\n-- run\npcall(" ++
  S runN ++
  S ")\n"

/-- `Object.keys(permMap).map(k => OPS["k"] = v;).join('\n')`
(obfuscator.js:463). -/
def opAssigns (vals : List Nat) : List Char :=
  List.intercalate ['\n']
    ((opcKeys.zip vals).map
      (fun p => S "OPS[\"" ++ S p.1 ++ S "\"] = " ++ natDigits p.2 ++ S ";"))

/-- The randomness one `obfuscateLua` call consumes, passed in explicitly:
`ints` are the raw `Math.random`/`crypto.randomBytes` draws the encryption
takes, `names` the `randName(6)` outputs the six `randId()`s take, `junkNames`
and `hex` the `randName(6)`/`randomBytes(6).toString('hex')` outputs of the
padding loop, and `permVals` the outcome of the opcode-value shuffle
`vals.slice().sort(() => Math.random() - 0.5)` (obfuscator.js:594-601). -/
structure RandSrc where
  ints : Nat → Nat
  names : Nat → String
  junkNames : Nat → String
  hex : Nat → String
  permVals : List Nat

/-- `randId()` = `randName(6) + "_" + randName(6)` (obfuscator.js:24); the
`i`-th call. -/
def randIdAt (R : RandSrc) (i : Nat) : String :=
  R.names (2 * i) ++ "_" ++ R.names (2 * i + 1)

/-- One padding fragment `;${randName(6)}="${crypto.randomBytes(6).toString('hex')}"`
(obfuscator.js:571). -/
def junkPiece (R : RandSrc) (j : Nat) : List Char :=
  S ";" ++ S (R.junkNames j) ++ S "=\"" ++ S (R.hex j) ++ S "\""

/-- The UTF-16 code units of one scalar: itself for the BMP, a surrogate
pair above it. -/
def utf16Units (c : Char) : List Nat :=
  if c.toNat < 65536 then [c.toNat]
  else [55296 + (c.toNat - 65536) / 1024, 56320 + (c.toNat - 65536) % 1024]

/-- A JS string's code-unit sequence. -/
def toUnits (l : List Char) : List Nat := l.flatMap utf16Units

def isHighSurr (u : Nat) : Bool := 55296 ≤ u && u < 56320

def isLowSurr (u : Nat) : Bool := 56320 ≤ u && u < 57344

/-- `Buffer.byteLength(s, 'utf8')` over a code-unit sequence: 1 byte below
0x80, 2 below 0x800, 3 for other BMP units, 4 for a high surrogate followed
by a low one, and 3 for a lone surrogate (Node encodes it as U+FFFD). -/
def utf8Len : List Nat → Nat
  | [] => 0
  | [u] =>
      if u < 128 then 1
      else if u < 2048 then 2
      else 3
  | u :: v :: rest =>
      if u < 128 then 1 + utf8Len (v :: rest)
      else if u < 2048 then 2 + utf8Len (v :: rest)
      else if isHighSurr u && isLowSurr v then 4 + utf8Len rest
      else 3 + utf8Len (v :: rest)

/-- `while (Buffer.byteLength(out, 'utf8') < targetSize) out += piece;`
(obfuscator.js:570-572), fueled: each fragment starts with `;` so one
appended fragment adds at least one byte, and `target + 1` rounds always
suffice. -/
def padLoop (piece : Nat → List Nat) (target : Nat) :
    Nat → List Nat → Nat → List Nat
  | 0, out, _ => out
  | fuel+1, out, j =>
      if utf8Len out < target then padLoop piece target fuel (out ++ piece j) (j + 1)
      else out

/-- The padding loop followed by
`if (Buffer.byteLength(out, 'utf8') > targetSize) out = out.slice(0, targetSize);`
(obfuscator.js:570-574): the test counts UTF-8 bytes, the slice keeps the
first `targetSize` UTF-16 code units. -/
def padTruncate (piece : Nat → List Nat) (target : Nat) (out : List Nat) :
    List Nat :=
  let out2 := padLoop piece target (target + 1) out 0
  if target < utf8Len out2 then out2.take target else out2

/-- The artifact before padding and truncation: program text, the two
interpreter templates with their randomized helper names around the opcode
assignments, and the one-sided newline-to-semicolon rewrite
(obfuscator.js:373-569). `randId()` call 0 is `fn_build_chunks`, generated
but never spliced in. -/
def assembleLua (programLua : List Char) (R : RandSrc) (oneSided : Bool) :
    List Char :=
  let rotrN := randIdAt R 1
  let subN := randIdAt R 2
  let unshN := randIdAt R 3
  let bstrN := randIdAt R 4
  let runN := randIdAt R 5
  let lua := programLua ++ interpPartA rotrN subN unshN bstrN ++
    opAssigns R.permVals ++ S "\n" ++ interpPartB bstrN runN
  if oneSided then lua.map (fun c => if c = '\n' then ';' else c) else lua

/-- `function buildLuaInterpreter(programLua, permMap, targetSize, oneSided)`
(obfuscator.js:373-575); the result is the returned JS string's code-unit
sequence. -/
def buildLuaInterpreter (programLua : List Char) (R : RandSrc)
    (targetSize : Nat) (oneSided : Bool) : List Nat :=
  padTruncate (fun j => toUnits (junkPiece R j)) targetSize
    (toUnits (assembleLua programLua R oneSided))

/-- `const DEFAULT_TARGET = 100 * 1024;` (obfuscator.js:15). -/
def DEFAULT_TARGET : Nat := 100 * 1024

/-- The options object: `targetSizeBytes` is `none` when absent. -/
structure Options where
  targetSizeBytes : Option Nat
  oneSided : Bool
  debug : Bool

/-- The JS `source` argument: a string, or any non-string value. -/
inductive JSVal where
  | str (s : String)
  | nonString

/-- `const targetSize = opts.targetSizeBytes || DEFAULT_TARGET;`
(obfuscator.js:580): `0` and an absent field are falsy. -/
def effTarget (opts : Options) : Nat :=
  match opts.targetSizeBytes with
  | some n => if n = 0 then DEFAULT_TARGET else n
  | none => DEFAULT_TARGET

/-- `function obfuscateLua(source, opts = {})` (obfuscator.js:578-610):
throws only on a non-string source; `debug` is read (obfuscator.js:582) and
never used. The artifact is returned as its code-unit sequence. -/
def obfuscateLua (source : JSVal) (opts : Options) (R : RandSrc) :
    Except String (List Nat) :=
  match source with
  | JSVal.nonString => Except.error "source must be string"
  | JSVal.str src =>
      let targetSize := effTarget opts
      let oneSided := opts.oneSided
      let toks := tokenize src
      let ast := parseChunkTop toks
      let b := buildChunk ast
      let programLua := serializeProgram b R.permVals R.ints 0
      Except.ok (buildLuaInterpreter programLua R targetSize oneSided)

/-- The instruction stream the front end of an `obfuscateLua` call computes
(tokenize, parseChunk, buildFromAst; obfuscator.js:584-591), with the call's
random source in scope: the front end takes no draw from it. -/
def frontEndCode (src : String) (_R : RandSrc) : List Nat :=
  (buildChunk (parseChunkTop (tokenize src))).code

/-- Whether a call threw. -/
def isError {ε α : Type} : Except ε α → Bool
  | Except.error _ => true
  | Except.ok _ => false

/-- A concrete random source for closed evaluations: every `randName(6)`
draw is `"aaaaaa"`, every hex draw `"000000000000"`, every raw draw 0, and
the opcode shuffle came out as the identity order. -/
def testR : RandSrc :=
  ⟨fun _ => 0, fun _ => "aaaaaa", fun _ => "aaaaaa", fun _ => "000000000000",
   [1, 2, 3, 4, 5, 6, 7, 8, 9, 10, 11, 12, 13, 14, 255]⟩

/-- The smallest artifact a call with these inputs can produce: the UTF-8
byte length of the assembled text before the padding loop, which only grows
it toward the target, and before truncation (obfuscator.js:566-569). -/
def minimalArtifactSize (src : String) (opts : Options) (R : RandSrc) : Nat :=
  utf8Len (toUnits (assembleLua
    (serializeProgram (buildChunk (parseChunkTop (tokenize src))) R.permVals R.ints 0)
    R opts.oneSided))

/-- The call returned an artifact of at least `n` UTF-8 bytes. -/
def returnsAtLeast (e : Except String (List Nat)) (n : Nat) : Prop :=
  match e with
  | Except.ok out => n ≤ utf8Len out
  | Except.error _ => False

theorem utf8Len_pos : ∀ (l : List Nat), l ≠ [] → 1 ≤ utf8Len l := by
  intro l h
  match l with
  | [u] => rw [utf8Len]; split_ifs <;> omega
  | u :: v :: rest => rw [utf8Len]; split_ifs <;> omega

/-- Every code unit costs at least one UTF-8 byte. -/
theorem length_le_utf8Len : ∀ l : List Nat, l.length ≤ utf8Len l := by
  suffices h : ∀ n (l : List Nat), l.length = n → l.length ≤ utf8Len l by
    intro l; exact h l.length l rfl
  intro n
  induction n using Nat.strong_induction_on with
  | _ n ih =>
    intro l hl
    match l with
    | [] => rw [utf8Len]; rfl
    | [u] => rw [utf8Len]; split_ifs <;> simp
    | u :: v :: rest =>
        rw [utf8Len]
        have h1 := ih (v :: rest).length
          (by simp only [List.length_cons] at hl ⊢; omega) (v :: rest) rfl
        have h2 := ih rest.length
          (by simp only [List.length_cons] at hl ⊢; omega) rest rfl
        split_ifs <;> simp only [List.length_cons] at * <;> omega

/-- Appending a nonempty fragment grows the UTF-8 byte count by at least
one, whether or not the seam completes a surrogate pair. -/
theorem utf8Len_append_one :
    ∀ a b : List Nat, b ≠ [] → utf8Len a + 1 ≤ utf8Len (a ++ b) := by
  suffices h : ∀ n (a : List Nat), a.length = n → ∀ b, b ≠ [] →
      utf8Len a + 1 ≤ utf8Len (a ++ b) by
    intro a b hb; exact h a.length a rfl b hb
  intro n
  induction n using Nat.strong_induction_on with
  | _ n ih =>
    intro a ha b hb
    match a with
    | [] =>
        have := utf8Len_pos b hb
        simp only [List.nil_append, utf8Len]
        omega
    | [u] =>
        match b, hb with
        | w :: b2, _ =>
            have hpos := utf8Len_pos (w :: b2) (by simp)
            rw [show [u] ++ (w :: b2) = u :: w :: b2 from rfl, utf8Len, utf8Len]
            split_ifs <;> omega
    | u :: v :: rest =>
        have h1 := ih (v :: rest).length
          (by simp only [List.length_cons] at ha ⊢; omega) (v :: rest) rfl b hb
        have h2 := ih rest.length
          (by simp only [List.length_cons] at ha ⊢; omega) rest rfl b hb
        simp only [List.cons_append] at h1 h2
        rw [show (u :: v :: rest) ++ b = u :: v :: (rest ++ b) from rfl,
          utf8Len, utf8Len]
        split_ifs <;> omega

/-- On ASCII units, byte count and unit count coincide. -/
theorem utf8Len_ascii : ∀ l : List Nat, (∀ u ∈ l, u < 128) → utf8Len l = l.length := by
  intro l
  induction l with
  | nil => intro _; rfl
  | cons u rest ih =>
      intro h
      have hu : u < 128 := h u (by simp)
      cases rest with
      | nil => rw [utf8Len, if_pos hu]; rfl
      | cons v rest2 =>
          rw [utf8Len, if_pos hu, ih (fun w hw => h w (by simp [hw]))]
          simp only [List.length_cons]
          omega

theorem padLoop_bytes_ge (piece : Nat → List Nat) (target : Nat)
    (hp : ∀ j, piece j ≠ []) :
    ∀ fuel out j, target ≤ utf8Len out + fuel →
      target ≤ utf8Len (padLoop piece target fuel out j) := by
  intro fuel
  induction fuel with
  | zero => intro out j h; rw [padLoop]; omega
  | succ fuel ih =>
      intro out j h
      rw [padLoop]
      by_cases hlt : utf8Len out < target
      · rw [if_pos hlt]
        apply ih
        have := utf8Len_append_one out (piece j) (hp j)
        omega
      · rw [if_neg hlt]; omega

theorem padLoop_ascii (piece : Nat → List Nat) (target : Nat)
    (hP : ∀ j u, u ∈ piece j → u < 128) :
    ∀ fuel out j, (∀ u ∈ out, u < 128) →
      ∀ u ∈ padLoop piece target fuel out j, u < 128 := by
  intro fuel
  induction fuel with
  | zero => intro out j h; rw [padLoop]; exact h
  | succ fuel ih =>
      intro out j h
      rw [padLoop]
      by_cases hlt : utf8Len out < target
      · rw [if_pos hlt]
        apply ih
        intro u hu
        rcases List.mem_append.mp hu with h1 | h1
        · exact h u h1
        · exact hP j u h1
      · rw [if_neg hlt]; exact h

/-- The artifact never comes out below the target in UTF-8 bytes: the loop
pads to at least `target` bytes, and the slice keeps `target` code units —
each worth at least one byte — or everything. -/
theorem padTruncate_bytes_ge (piece : Nat → List Nat) (target : Nat)
    (out : List Nat) (hp : ∀ j, piece j ≠ []) :
    target ≤ utf8Len (padTruncate piece target out) := by
  have hge : target ≤ utf8Len (padLoop piece target (target + 1) out 0) :=
    padLoop_bytes_ge piece target hp (target + 1) out 0 (by omega)
  rw [padTruncate]
  by_cases h : target < utf8Len (padLoop piece target (target + 1) out 0)
  · rw [if_pos h]
    by_cases hlen : (padLoop piece target (target + 1) out 0).length ≤ target
    · rw [List.take_of_length_le hlen]; omega
    · have h1 : ((padLoop piece target (target + 1) out 0).take target).length
          = target := by
        rw [List.length_take]; omega
      have h2 := length_le_utf8Len ((padLoop piece target (target + 1) out 0).take target)
      omega
  · rw [if_neg h]; omega

/-- When the text and the padding fragments are ASCII — where bytes and code
units agree — the artifact is exactly `target` bytes. -/
theorem padTruncate_bytes_ascii (piece : Nat → List Nat) (target : Nat)
    (out : List Nat) (hp : ∀ j, piece j ≠ [])
    (hA : ∀ u ∈ out, u < 128) (hP : ∀ j u, u ∈ piece j → u < 128) :
    utf8Len (padTruncate piece target out) = target := by
  have hge : target ≤ utf8Len (padLoop piece target (target + 1) out 0) :=
    padLoop_bytes_ge piece target hp (target + 1) out 0 (by omega)
  have hascii : ∀ u ∈ padLoop piece target (target + 1) out 0, u < 128 :=
    padLoop_ascii piece target hP (target + 1) out 0 hA
  have heq : utf8Len (padLoop piece target (target + 1) out 0)
      = (padLoop piece target (target + 1) out 0).length :=
    utf8Len_ascii _ hascii
  rw [padTruncate]
  by_cases h : target < utf8Len (padLoop piece target (target + 1) out 0)
  · rw [if_pos h]
    have ht : ∀ u ∈ (padLoop piece target (target + 1) out 0).take target, u < 128 :=
      fun u hu => hascii u (List.take_subset _ _ hu)
    rw [utf8Len_ascii _ ht, List.length_take]
    omega
  · rw [if_neg h]; omega

/-- When the loop never runs and the byte length already exceeds the target,
the artifact is the slice of the first `target` code units. -/
theorem padTruncate_no_pad_take (piece : Nat → List Nat) (target : Nat)
    (out : List Nat) (h : target < utf8Len out) :
    padTruncate piece target out = out.take target := by
  have hno : ¬ (utf8Len out < target) := by omega
  rw [padTruncate, padLoop, if_neg hno, if_pos h]

theorem toUnits_junkPiece_ne (R : RandSrc) (j : Nat) :
    toUnits (junkPiece R j) ≠ [] := by
  simp [toUnits, junkPiece, S, utf16Units]

theorem buildLuaInterpreter_bytes_ge (programLua : List Char) (R : RandSrc)
    (targetSize : Nat) (oneSided : Bool) :
    targetSize ≤ utf8Len (buildLuaInterpreter programLua R targetSize oneSided) := by
  rw [buildLuaInterpreter]
  exact padTruncate_bytes_ge _ _ _ (fun j => toUnits_junkPiece_ne R j)

theorem buildLuaInterpreter_bytes_ascii (programLua : List Char) (R : RandSrc)
    (targetSize : Nat) (oneSided : Bool)
    (hA : ∀ u ∈ toUnits (assembleLua programLua R oneSided), u < 128)
    (hJ : ∀ j, ∀ u ∈ toUnits (junkPiece R j), u < 128) :
    utf8Len (buildLuaInterpreter programLua R targetSize oneSided) = targetSize := by
  rw [buildLuaInterpreter]
  exact padTruncate_bytes_ascii _ _ _ (fun j => toUnits_junkPiece_ne R j) hA
    (fun j u hu => hJ j u hu)

/-- A scalar encodes to at least one code unit. -/
theorem len_le_toUnits : ∀ l : List Char, l.length ≤ (toUnits l).length := by
  intro l
  induction l with
  | nil => simp [toUnits]
  | cons c rest ih =>
      have hc : 1 ≤ (utf16Units c).length := by
        rw [utf16Units]; split_ifs <;> simp
      simp only [toUnits, List.flatMap_cons, List.length_append, List.length_cons] at *
      omega

/-- The unpadded artifact for the empty source under `testR` is longer than
130 bytes (one interpreter template alone already is). -/
theorem testR_empty_min_bound :
    130 < utf8Len (toUnits (assembleLua (serializeProgram
      (buildChunk (parseChunkTop (tokenize ""))) testR.permVals testR.ints 0)
      testR false)) := by
  have hE : 130 < (interpPartB (randIdAt testR 4) (randIdAt testR 5)).length := by
    simp only [interpPartB, List.length_append, S]
    decide
  have hchars : 130 < (assembleLua (serializeProgram
      (buildChunk (parseChunkTop (tokenize ""))) testR.permVals testR.ints 0)
      testR false).length := by
    simp only [assembleLua, Bool.false_eq_true, if_false, List.length_append]
    omega
  have h2 := len_le_toUnits (assembleLua (serializeProgram
    (buildChunk (parseChunkTop (tokenize ""))) testR.permVals testR.ints 0)
    testR false)
  have h3 := length_le_utf8Len (toUnits (assembleLua (serializeProgram
    (buildChunk (parseChunkTop (tokenize ""))) testR.permVals testR.ints 0)
    testR false))
  omega

/-- C2 counterexample: with source `""` and `targetSizeBytes = 130` — far
below the minimal content, which is over 130 bytes — the artifact is
truncated to exactly 130 bytes. The claim's below-minimum branch
(`byteLength ≥ trueMinimum`) is false: the minimum does not win. -/
theorem c2_below_minimum_truncates :
    (obfuscateLua (JSVal.str "") ⟨some 130, false, false⟩ testR).map utf8Len
        = Except.ok 130
      ∧ 130 < minimalArtifactSize "" ⟨some 130, false, false⟩ testR := by
  have h1 := testR_empty_min_bound
  constructor
  · have he : effTarget ⟨some 130, false, false⟩ = 130 := rfl
    simp only [obfuscateLua, Except.map, buildLuaInterpreter, he]
    rw [padTruncate_no_pad_take _ _ _ h1]
    congr 1
  · exact h1

/-- C2 as amended: for every source string, options value and random source,
the artifact's UTF-8 byte length is at least the effective target
(`targetSizeBytes`, or 102400 when that is falsy), and equals it whenever
the assembled text and the padding fragments are ASCII (where UTF-8 bytes
and the UTF-16 code units that `slice` cuts agree — in particular for every
ASCII source with the generator's ASCII names). A target below the minimal
content size truncates the artifact toward the target: the minimum never
wins. -/
theorem c2_size_tracks_target (src : String) (opts : Options) (R : RandSrc) :
    returnsAtLeast (obfuscateLua (JSVal.str src) opts R) (effTarget opts)
      ∧ ((∀ u ∈ toUnits (assembleLua (serializeProgram
            (buildChunk (parseChunkTop (tokenize src))) R.permVals R.ints 0)
            R opts.oneSided), u < 128) →
        (∀ j, ∀ u ∈ toUnits (junkPiece R j), u < 128) →
        (obfuscateLua (JSVal.str src) opts R).map utf8Len
          = Except.ok (effTarget opts)) := by
  constructor
  · simp only [obfuscateLua, returnsAtLeast]
    exact buildLuaInterpreter_bytes_ge _ _ _ _
  · intro hA hJ
    simp only [obfuscateLua, Except.map]
    rw [buildLuaInterpreter_bytes_ascii _ _ _ _ hA hJ]

/-- C3 counterexample: a target size of 1 byte — far below the claimed
enforced minimum of 128 — is not rejected: the call returns an artifact
(of exactly 1 byte). `obfuscateLua` in obfuscator.js has no minimum-size
check. -/
theorem c3_small_target_not_rejected :
    isError (obfuscateLua (JSVal.str "") ⟨some 1, false, false⟩ testR) = false
      ∧ (obfuscateLua (JSVal.str "") ⟨some 1, false, false⟩ testR).map utf8Len
          = Except.ok 1 := by
  refine ⟨rfl, ?_⟩
  have h1 := testR_empty_min_bound
  have he : effTarget ⟨some 1, false, false⟩ = 1 := rfl
  simp only [obfuscateLua, Except.map, buildLuaInterpreter, he]
  rw [padTruncate_no_pad_take _ _ _ (by omega)]
  congr 1

/-- C3 as amended: `obfuscateLua` raises if and only if the source is not a
string; it never raises for malformed source text, and it applies no
minimum to the target size. -/
theorem c3_error_iff_nonstring (source : JSVal) (opts : Options) (R : RandSrc) :
    isError (obfuscateLua source opts R) = true ↔ source = JSVal.nonString := by
  cases source <;> simp [obfuscateLua, isError]

/-- C7: the compilation front end is deterministic in structure — two runs
on the same source with different random sources produce identical
instruction streams (hence identical lengths and opcode/operand sequences):
randomness only reaches key material, name generation and padding, never the
emitted code array. -/
theorem c7_front_end_deterministic (src : String) (R1 R2 : RandSrc) :
    frontEndCode src R1 = frontEndCode src R2
      ∧ (frontEndCode src R1).length = (frontEndCode src R2).length :=
  ⟨rfl, rfl⟩

/-- C10: a falsy `targetSizeBytes` — `0` or an absent field — is not an
error: the call substitutes the default target of 102400 bytes and returns
an artifact of at least 102400 UTF-8 bytes, so a zero-size artifact cannot
be requested. -/
theorem c10_zero_target_uses_default (src : String) (os dbg : Bool)
    (R : RandSrc) :
    isError (obfuscateLua (JSVal.str src) ⟨some 0, os, dbg⟩ R) = false
      ∧ effTarget ⟨some 0, os, dbg⟩ = DEFAULT_TARGET
      ∧ DEFAULT_TARGET = 102400
      ∧ returnsAtLeast (obfuscateLua (JSVal.str src) ⟨some 0, os, dbg⟩ R) 102400
      ∧ returnsAtLeast (obfuscateLua (JSVal.str src) ⟨none, os, dbg⟩ R) 102400 := by
  refine ⟨rfl, rfl, rfl, ?_, ?_⟩ <;>
    · simp only [obfuscateLua, returnsAtLeast]
      exact buildLuaInterpreter_bytes_ge _ _ _ _

end Obf
